import Mathlib

/-!
Verification of the domain-availability classification engine of the
whodis-mcp-server repository, a shallow embedding of
`src/services/domain-availability.service.ts`.

The WHOIS capability (`whoiser.domain`) is external: it is modelled as an
oracle `whois : String → Except String Record`, returning either a
structured record (a JavaScript object mapping source labels to
sub-records) or a failure carrying a human-readable message.  Per the
repository's own interface description, field values are strings, arrays,
or nested mappings; JavaScript truthiness and `JSON.stringify` are
modelled below.
-/

namespace Whodis

/-- Model of a JavaScript value as produced by the WHOIS library: a string,
an array, a nested object (an ordered association list of fields, keys
unique as in a JS object), or null. -/
inductive Jv where
  | null : Jv
  | str (s : String) : Jv
  | arr (xs : List Jv) : Jv
  | obj (fields : List (String × Jv)) : Jv

/-- Top-level structured WHOIS record: mapping from source label (WHOIS
server name) to that source's sub-record value, as a JS object. -/
abbrev Record : Type := List (String × Jv)

/-- JavaScript truthiness of a value: null and the empty string are falsy;
any non-empty string, any array and any object are truthy. -/
def truthy : Jv → Bool
  | Jv.null => false
  | Jv.str s => !s.isEmpty
  | Jv.arr _ => true
  | Jv.obj _ => true

/-- JavaScript property access `v[k]` followed by a truthiness test, as in
`serverData['Registrar']` used in a boolean context: reading a key off a
non-object (or a missing key) yields `undefined`, which is falsy. -/
def fieldTruthy (v : Jv) (k : String) : Bool :=
  match v with
  | Jv.obj fs =>
      match fs.lookup k with
      | some x => truthy x
      | none => false
  | _ => false

/-- Model of `hasRegistrarData` (service lines 55-61):
`Object.values(domainInfo).some(serverData => serverData &&
(serverData['Registrar'] || serverData['Creation Date'] ||
serverData['Expiry Date']))`. -/
def hasRegistrarData (domainInfo : Record) : Bool :=
  domainInfo.any (fun kv =>
    truthy kv.2 &&
      (fieldTruthy kv.2 "Registrar" ||
        fieldTruthy kv.2 "Creation Date" ||
        fieldTruthy kv.2 "Expiry Date"))

/-- Escape of one character inside a JSON string literal, as performed by
`JSON.stringify`: quote, backslash, newline, carriage return and tab get
two-character escapes; other characters pass through. -/
def jsonEscapeChar (c : Char) : String :=
  if c.toNat = 34 then String.mk [Char.ofNat 92, Char.ofNat 34]
  else if c.toNat = 92 then String.mk [Char.ofNat 92, Char.ofNat 92]
  else if c.toNat = 10 then String.mk [Char.ofNat 92, Char.ofNat 110]
  else if c.toNat = 13 then String.mk [Char.ofNat 92, Char.ofNat 114]
  else if c.toNat = 9 then String.mk [Char.ofNat 92, Char.ofNat 116]
  else String.singleton c

/-- JSON string literal for `s`: surrounding double quotes plus escapes. -/
def jsonStr (s : String) : String :=
  String.singleton (Char.ofNat 34)
    ++ String.join (s.toList.map jsonEscapeChar)
    ++ String.singleton (Char.ofNat 34)

mutual

/-- Model of `JSON.stringify` on a `Jv` value. -/
def stringify : Jv → String
  | Jv.null => "null"
  | Jv.str s => jsonStr s
  | Jv.arr xs => "[" ++ stringifyList xs ++ "]"
  | Jv.obj fs => "\x7b" ++ stringifyFields fs ++ "\x7d"

/-- Comma-separated serializations of array elements. -/
def stringifyList : List Jv → String
  | [] => ""
  | [x] => stringify x
  | x :: y :: xs => stringify x ++ "," ++ stringifyList (y :: xs)

/-- Comma-separated `"key":value` serializations of object fields. -/
def stringifyFields : List (String × Jv) → String
  | [] => ""
  | [kv] => jsonStr kv.1 ++ ":" ++ stringify kv.2
  | kv :: kv2 :: fs =>
      jsonStr kv.1 ++ ":" ++ stringify kv.2 ++ ","
        ++ stringifyFields (kv2 :: fs)

end

/-- Auxiliary for `strIncludes`: whether `pat` is an initial segment of
`cs`. -/
def charsStartWith : List Char → List Char → Bool
  | [], _ => true
  | _ :: _, [] => false
  | p :: ps, c :: cs => (p == c) && charsStartWith ps cs

/-- Auxiliary for `strIncludes`: whether `pat` occurs contiguously inside
`cs`. -/
def charsContain (pat : List Char) : List Char → Bool
  | [] => charsStartWith pat []
  | c :: cs => charsStartWith pat (c :: cs) || charsContain pat cs

/-- Model of `String.prototype.includes`: `strIncludes s pat` is true when
`pat` occurs as a contiguous substring of `s`. -/
def strIncludes (s pat : String) : Bool :=
  charsContain pat.toList s.toList

/-- Model of `String.prototype.toLowerCase`, applied character by
character (the substrings the service searches for are ASCII). -/
def toLowerCase (s : String) : String :=
  String.mk (s.toList.map Char.toLower)

/-- Per-domain verdict as produced by the task body in `check`: the string
statuses `'available'`, `'unavailable'` and `'failed'` of the source. -/
inductive Status where
  | available : Status
  | unavailable : Status
  | failed : Status
deriving DecidableEq

/-- Classification of a successful WHOIS lookup (service lines 49-98):
registrar-style fields on any source dominate; otherwise the record's
lower-cased `JSON.stringify` serialization is sniffed for not-found text;
a structurally empty record means available.  The guard
`domainInfo && typeof domainInfo === 'object'` always holds here since a
`Record` is a JS object, so only `Object.keys(domainInfo).length > 0`
remains of the source's first condition. -/
def classifySuccess (domainInfo : Record) : Status :=
  if domainInfo.length > 0 then
    if hasRegistrarData domainInfo then Status.unavailable
    else
      let rawText := toLowerCase (stringify (Jv.obj domainInfo))
      if strIncludes rawText "no match" || strIncludes rawText "not found" ||
          strIncludes rawText "domain name not known" ||
          strIncludes rawText "no entries found" ||
          strIncludes rawText "is available" ||
          strIncludes rawText "is free" then
        Status.available
      else Status.unavailable
  else Status.available

/-- Classification of a failed WHOIS lookup (service lines 99-127, the
catch block): the failure message, lower-cased, is sniffed for not-found
text; an unrecognized failure yields status `failed` (the lookup is logged
and skipped — verdict indeterminate). -/
def classifyFailure (msg : String) : Status :=
  let errorMessage := toLowerCase msg
  if strIncludes errorMessage "no match" ||
      strIncludes errorMessage "not found" ||
      strIncludes errorMessage "domain name not known" ||
      strIncludes errorMessage "no entries found" then
    Status.available
  else Status.failed

/-- Body of the per-domain task launched by `check` for one domain: await
the WHOIS oracle and classify.  The `Except.error` arm is the source's
catch block, so the task itself never rejects. -/
def runDomainCheck (whois : String → Except String Record)
    (domain : String) : Status :=
  match whois domain with
  | Except.ok domainInfo => classifySuccess domainInfo
  | Except.error e => classifyFailure e

/-- The result shape of the batch operation: two ordered lists of domain
names, as in `DomainAvailabilityResult` of the source. -/
structure DomainAvailabilityResult where
  available : List String
  unavailable : List String
deriving DecidableEq

/-- Aggregation loop of `check` (service lines 131-149): walk the settled
results paired with their domains in input order, pushing each domain onto
the list its status selects and skipping `failed`. -/
def aggregate : DomainAvailabilityResult → List (Status × String) →
    DomainAvailabilityResult
  | acc, [] => acc
  | acc, (s, d) :: rest =>
      aggregate
        (match s with
          | Status.available =>
              { acc with available := acc.available ++ [d] }
          | Status.unavailable =>
              { acc with unavailable := acc.unavailable ++ [d] }
          | Status.failed => acc)
        rest

/-- The batch operation `check` of the service: run every domain's task
(all tasks settle, none rejects, thanks to the per-domain catch) and
aggregate the statuses in original input order. -/
def check (whois : String → Except String Record)
    (domains : List String) : DomainAvailabilityResult :=
  let checks := domains.map (runDomainCheck whois)
  aggregate ⟨[], []⟩ (checks.zip domains)

/-- Except-level rendering of the batch pipeline: each per-domain task is
the try/catch body of the source, hence returns `Except.ok` of its status;
`mapM` mirrors the join over all settled tasks and would propagate any
rejection.  Used to state that no per-domain failure escapes `check`. -/
def checkSettled (whois : String → Except String Record)
    (domains : List String) : Except String DomainAvailabilityResult := do
  let checks ← domains.mapM
    (fun d => (Except.ok (runDomainCheck whois d) : Except String Status))
  pure (aggregate ⟨[], []⟩ (checks.zip domains))

/-! Helper lemmas shared by the claim theorems. -/

/-- A truthy field read only succeeds on an object, and objects are
truthy. -/
theorem truthy_of_fieldTruthy {v : Jv} {k : String}
    (h : fieldTruthy v k = true) : truthy v = true := by
  cases v with
  | obj fs => rfl
  | null => simp [fieldTruthy] at h
  | str s => simp [fieldTruthy] at h
  | arr xs => simp [fieldTruthy] at h

/-- Sufficient condition for `hasRegistrarData`: some source sub-record
has a truthy value under one of the three registrar-style keys. -/
theorem hasRegistrarData_of_field {info : Record}
    (h : ∃ kv ∈ info,
      (fieldTruthy kv.2 "Registrar" || fieldTruthy kv.2 "Creation Date" ||
        fieldTruthy kv.2 "Expiry Date") = true) :
    hasRegistrarData info = true := by
  obtain ⟨kv, hmem, hf⟩ := h
  have ht : truthy kv.2 = true := by
    rcases Bool.or_eq_true_iff.mp hf with h12 | h3
    · rcases Bool.or_eq_true_iff.mp h12 with h1 | h2
      · exact truthy_of_fieldTruthy h1
      · exact truthy_of_fieldTruthy h2
    · exact truthy_of_fieldTruthy h3
  unfold hasRegistrarData
  rw [List.any_eq_true]
  exact ⟨kv, hmem, by simp [ht, hf]⟩

/-- Necessary condition: if no source has a truthy registrar-style field,
`hasRegistrarData` is false. -/
theorem hasRegistrarData_eq_false {info : Record}
    (h : ∀ kv ∈ info,
      (fieldTruthy kv.2 "Registrar" || fieldTruthy kv.2 "Creation Date" ||
        fieldTruthy kv.2 "Expiry Date") = false) :
    hasRegistrarData info = false := by
  unfold hasRegistrarData
  rw [List.any_eq_false]
  intro kv hmem
  rw [h kv hmem]
  simp

/-- Unfolding of the aggregation loop: starting from accumulator `acc`, it
appends to each side exactly the domains whose status filters in, in input
order. -/
theorem aggregate_spec (whois : String → Except String Record) :
    ∀ (domains : List String) (acc : DomainAvailabilityResult),
      aggregate acc ((domains.map (runDomainCheck whois)).zip domains) =
        ⟨acc.available ++ domains.filter
            (fun d => decide (runDomainCheck whois d = Status.available)),
          acc.unavailable ++ domains.filter
            (fun d => decide (runDomainCheck whois d = Status.unavailable))⟩ := by
  intro domains
  induction domains with
  | nil => intro acc; simp [aggregate]
  | cons d ds ih =>
      intro acc
      have hz : (List.map (runDomainCheck whois) (d :: ds)).zip (d :: ds) =
          (runDomainCheck whois d, d) ::
            ((List.map (runDomainCheck whois) ds).zip ds) := rfl
      rw [hz]
      cases h : runDomainCheck whois d with
      | available =>
          simp only [aggregate]
          rw [ih]
          simp [List.filter_cons, h, List.append_assoc]
      | unavailable =>
          simp only [aggregate]
          rw [ih]
          simp [List.filter_cons, h, List.append_assoc]
      | failed =>
          simp only [aggregate]
          rw [ih]
          simp [List.filter_cons, h]

/-- The batch result is the pair of stable filters of the input by
per-domain verdict. -/
theorem check_eq_filter (whois : String → Except String Record)
    (domains : List String) :
    check whois domains =
      ⟨domains.filter
          (fun d => decide (runDomainCheck whois d = Status.available)),
        domains.filter
          (fun d => decide (runDomainCheck whois d = Status.unavailable))⟩ := by
  simpa [check] using aggregate_spec whois domains ⟨[], []⟩

/-- Mapping an `Except.ok`-valued function over a list in the `Except`
monad never produces an error. -/
theorem mapM_ok {α β ε : Type} (f : α → β) :
    ∀ l : List α,
      (l.mapM (fun a => (Except.ok (f a) : Except ε β))) =
        Except.ok (l.map f)
  | [] => rfl
  | a :: l => by rw [List.mapM_cons, mapM_ok f l]; rfl

/-- Count of an element in a filtered list. -/
theorem count_filter_eq {α : Type} [BEq α] [LawfulBEq α] (p : α → Bool)
    (a : α) (l : List α) :
    (l.filter p).count a = if p a = true then l.count a else 0 := by
  by_cases h : p a = true
  · rw [if_pos h, List.count_filter h]
  · rw [if_neg h, List.count_eq_zero]
    intro hmem
    exact h (List.mem_filter.mp hmem).2

/-- Two filters by mutually exclusive predicates jointly keep at most all
elements. -/
theorem length_filter_add_le {α : Type} (p q : α → Bool)
    (hpq : ∀ a, ¬(p a = true ∧ q a = true)) :
    ∀ l : List α,
      (l.filter p).length + (l.filter q).length ≤ l.length := by
  intro l
  induction l with
  | nil => simp
  | cons x xs ih =>
      rcases Bool.eq_false_or_eq_true (p x) with hp | hp
      · have hq : q x = false := by
          rcases Bool.eq_false_or_eq_true (q x) with hq | hq
          · exact absurd ⟨hp, hq⟩ (hpq x)
          · exact hq
        simp only [List.filter_cons, hp, hq]
        simp only [Bool.false_eq_true, if_false, if_true, List.length_cons]
        omega
      · rcases Bool.eq_false_or_eq_true (q x) with hq | hq
        · simp only [List.filter_cons, hp, hq]
          simp only [Bool.false_eq_true, if_false, if_true,
            List.length_cons]
          omega
        · simp only [List.filter_cons, hp, hq]
          simp only [Bool.false_eq_true, if_false, List.length_cons]
          omega

/-! Claim theorems. -/

/-- C1: for every domain whose WHOIS query succeeds with a non-empty
structured record in which at least one source sub-record has a truthy
value under `Registrar`, `Creation Date` or `Expiry Date`, the verdict is
`unavailable` and the domain is placed in the report's `unavailable`
list. -/
theorem registrar_data_unavailable
    (whois : String → Except String Record) (domains : List String)
    (d : String) (info : Record)
    (hmem : d ∈ domains) (hok : whois d = Except.ok info)
    (hne : info ≠ [])
    (hreg : ∃ kv ∈ info,
      (fieldTruthy kv.2 "Registrar" || fieldTruthy kv.2 "Creation Date" ||
        fieldTruthy kv.2 "Expiry Date") = true) :
    runDomainCheck whois d = Status.unavailable ∧
      d ∈ (check whois domains).unavailable := by
  have hlen : info.length > 0 := List.length_pos.mpr hne
  have hstatus : runDomainCheck whois d = Status.unavailable := by
    unfold runDomainCheck
    rw [hok]
    simp [classifySuccess, hlen, hasRegistrarData_of_field hreg]
  refine ⟨hstatus, ?_⟩
  rw [check_eq_filter]
  exact List.mem_filter.mpr ⟨hmem, by simp [hstatus]⟩

/-- Witness for `registrar_data_unavailable` at the spec's own example:
a record with a `Registrar` field on one source. -/
theorem registrar_data_unavailable_witness :
    runDomainCheck
        (fun _ => Except.ok
          [("whois.verisign-grs.com",
            Jv.obj [("Registrar", Jv.str "MarkMonitor Inc.")])])
        "google.com" = Status.unavailable ∧
      "google.com" ∈
        (check
          (fun _ => Except.ok
            [("whois.verisign-grs.com",
              Jv.obj [("Registrar", Jv.str "MarkMonitor Inc.")])])
          ["google.com"]).unavailable :=
  registrar_data_unavailable _ _ _ _
    (List.mem_singleton.mpr rfl) rfl (List.cons_ne_nil _ _)
    ⟨("whois.verisign-grs.com",
        Jv.obj [("Registrar", Jv.str "MarkMonitor Inc.")]),
      List.mem_singleton.mpr rfl, by decide⟩

/-- C4: for every domain whose WHOIS query succeeds and returns a
structurally empty record, the verdict is `available` and the domain is
placed in the report's `available` list. -/
theorem empty_record_available
    (whois : String → Except String Record) (domains : List String)
    (d : String) (hmem : d ∈ domains) (hok : whois d = Except.ok []) :
    runDomainCheck whois d = Status.available ∧
      d ∈ (check whois domains).available := by
  have hstatus : runDomainCheck whois d = Status.available := by
    unfold runDomainCheck
    rw [hok]
    rfl
  refine ⟨hstatus, ?_⟩
  rw [check_eq_filter]
  exact List.mem_filter.mpr ⟨hmem, by simp [hstatus]⟩

/-- Witness for `empty_record_available`: an oracle answering with the
empty record. -/
theorem empty_record_available_witness :
    runDomainCheck (fun _ => Except.ok [])
        "likely-available-domain123.xyz" = Status.available ∧
      "likely-available-domain123.xyz" ∈
        (check (fun _ => Except.ok [])
          ["likely-available-domain123.xyz"]).available :=
  empty_record_available _ _ _ (List.mem_singleton.mpr rfl) rfl

/-- C5: for every input list and every assignment of WHOIS outcomes, no
domain name appears in both output lists of the report. -/
theorem no_domain_in_both_lists
    (whois : String → Except String Record) (domains : List String)
    (d : String) (h : d ∈ (check whois domains).available) :
    d ∉ (check whois domains).unavailable := by
  rw [check_eq_filter] at h ⊢
  intro h2
  have e1 : runDomainCheck whois d = Status.available :=
    of_decide_eq_true (List.mem_filter.mp h).2
  have e2 : runDomainCheck whois d = Status.unavailable :=
    of_decide_eq_true (List.mem_filter.mp h2).2
  rw [e1] at e2
  exact Status.noConfusion e2

/-- Witness for `no_domain_in_both_lists`: a domain classified available
is absent from the unavailable list. -/
theorem no_domain_in_both_lists_witness :
    "free.dev" ∈ (check (fun _ => Except.ok []) ["free.dev"]).available ∧
      "free.dev" ∉
        (check (fun _ => Except.ok []) ["free.dev"]).unavailable :=
  ⟨by decide, no_domain_in_both_lists _ _ _ (by decide)⟩

/-- C6: the two output lists of the report are the stable filters of the
input list by computed verdict — aggregation iterates the original input
order, so relative order within each list equals relative order in the
input, independent of query completion order. -/
theorem report_lists_are_stable_filters
    (whois : String → Except String Record) (domains : List String) :
    (check whois domains).available =
        domains.filter
          (fun d => decide (runDomainCheck whois d = Status.available)) ∧
      (check whois domains).unavailable =
        domains.filter
          (fun d => decide (runDomainCheck whois d = Status.unavailable)) := by
  rw [check_eq_filter]
  exact ⟨rfl, rfl⟩

/-- C9: called on an empty list of domains, `check` returns the report
with two empty lists. -/
theorem empty_input_yields_empty_report
    (whois : String → Except String Record) :
    check whois [] = ⟨[], []⟩ := rfl

/-- C10: every string in either output list is an element of the input,
each output list is a subsequence of the input, and the combined length of
the two output lists never exceeds the input's length. -/
theorem outputs_subsequences_of_input
    (whois : String → Except String Record) (domains : List String) :
    (∀ x ∈ (check whois domains).available, x ∈ domains) ∧
      (∀ x ∈ (check whois domains).unavailable, x ∈ domains) ∧
      List.Sublist (check whois domains).available domains ∧
      List.Sublist (check whois domains).unavailable domains ∧
      (check whois domains).available.length +
          (check whois domains).unavailable.length ≤ domains.length := by
  rw [check_eq_filter]
  refine ⟨fun x hx => (List.mem_filter.mp hx).1,
    fun x hx => (List.mem_filter.mp hx).1,
    List.filter_sublist domains, List.filter_sublist domains,
    length_filter_add_le _ _ ?_ domains⟩
  rintro a ⟨h1, h2⟩
  have e1 : runDomainCheck whois a = Status.available :=
    of_decide_eq_true h1
  have e2 : runDomainCheck whois a = Status.unavailable :=
    of_decide_eq_true h2
  rw [e1] at e2
  exact Status.noConfusion e2

/-- C2: for every domain whose WHOIS query fails, a lower-cased failure
message containing one of the not-found substrings yields verdict
`available` (and the domain lands in the `available` list); any other
failure yields the indeterminate status `failed` and the domain appears in
neither output list. -/
theorem failure_message_classification
    (whois : String → Except String Record) (domains : List String)
    (d : String) (msg : String) (herr : whois d = Except.error msg) :
    ((strIncludes (toLowerCase msg) "no match" ||
        strIncludes (toLowerCase msg) "not found" ||
        strIncludes (toLowerCase msg) "domain name not known" ||
        strIncludes (toLowerCase msg) "no entries found") = true →
      runDomainCheck whois d = Status.available ∧
        (d ∈ domains → d ∈ (check whois domains).available)) ∧
    ((strIncludes (toLowerCase msg) "no match" ||
        strIncludes (toLowerCase msg) "not found" ||
        strIncludes (toLowerCase msg) "domain name not known" ||
        strIncludes (toLowerCase msg) "no entries found") = false →
      runDomainCheck whois d = Status.failed ∧
        d ∉ (check whois domains).available ∧
        d ∉ (check whois domains).unavailable) := by
  have hrun : runDomainCheck whois d = classifyFailure msg := by
    unfold runDomainCheck
    rw [herr]
  constructor
  · intro hb
    have hstatus : runDomainCheck whois d = Status.available := by
      rw [hrun]
      simp [classifyFailure, hb]
    refine ⟨hstatus, fun hmem => ?_⟩
    rw [check_eq_filter]
    exact List.mem_filter.mpr ⟨hmem, by simp [hstatus]⟩
  · intro hb
    have hstatus : runDomainCheck whois d = Status.failed := by
      rw [hrun]
      simp [classifyFailure, hb]
    refine ⟨hstatus, ?_, ?_⟩
    · rw [check_eq_filter]
      intro hc
      have e1 : runDomainCheck whois d = Status.available :=
        of_decide_eq_true (List.mem_filter.mp hc).2
      rw [hstatus] at e1
      exact Status.noConfusion e1
    · rw [check_eq_filter]
      intro hc
      have e1 : runDomainCheck whois d = Status.unavailable :=
        of_decide_eq_true (List.mem_filter.mp hc).2
      rw [hstatus] at e1
      exact Status.noConfusion e1

/-- Witness for `failure_message_classification`: an unrelated network
error drops the domain from both lists. -/
theorem failure_message_classification_witness :
    runDomainCheck (fun _ => Except.error "ETIMEDOUT")
        "a-times-out.com" = Status.failed ∧
      "a-times-out.com" ∉
        (check (fun _ => Except.error "ETIMEDOUT")
          ["a-times-out.com"]).available ∧
      "a-times-out.com" ∉
        (check (fun _ => Except.error "ETIMEDOUT")
          ["a-times-out.com"]).unavailable :=
  (failure_message_classification
      (fun _ => Except.error "ETIMEDOUT") ["a-times-out.com"]
      "a-times-out.com" "ETIMEDOUT" rfl).2 (by decide)

/-- C3: for a successful non-empty record with no truthy registrar-style
field on any source, the verdict is `available` exactly when the
lower-cased serialization of the whole record contains one of the six
availability substrings, and `unavailable` otherwise; the domain lands in
the corresponding list. -/
theorem ambiguous_record_classification
    (whois : String → Except String Record) (domains : List String)
    (d : String) (info : Record)
    (hmem : d ∈ domains) (hok : whois d = Except.ok info)
    (hne : info ≠ [])
    (hnoreg : ∀ kv ∈ info,
      (fieldTruthy kv.2 "Registrar" || fieldTruthy kv.2 "Creation Date" ||
        fieldTruthy kv.2 "Expiry Date") = false) :
    ((strIncludes (toLowerCase (stringify (Jv.obj info))) "no match" ||
        strIncludes (toLowerCase (stringify (Jv.obj info))) "not found" ||
        strIncludes (toLowerCase (stringify (Jv.obj info)))
          "domain name not known" ||
        strIncludes (toLowerCase (stringify (Jv.obj info))) "no entries found" ||
        strIncludes (toLowerCase (stringify (Jv.obj info))) "is available" ||
        strIncludes (toLowerCase (stringify (Jv.obj info))) "is free") = true →
      runDomainCheck whois d = Status.available ∧
        d ∈ (check whois domains).available) ∧
    ((strIncludes (toLowerCase (stringify (Jv.obj info))) "no match" ||
        strIncludes (toLowerCase (stringify (Jv.obj info))) "not found" ||
        strIncludes (toLowerCase (stringify (Jv.obj info)))
          "domain name not known" ||
        strIncludes (toLowerCase (stringify (Jv.obj info))) "no entries found" ||
        strIncludes (toLowerCase (stringify (Jv.obj info))) "is available" ||
        strIncludes (toLowerCase (stringify (Jv.obj info))) "is free") = false →
      runDomainCheck whois d = Status.unavailable ∧
        d ∈ (check whois domains).unavailable) := by
  have hlen : info.length > 0 := List.length_pos.mpr hne
  have hreg : hasRegistrarData info = false := hasRegistrarData_eq_false hnoreg
  have hrun : runDomainCheck whois d = classifySuccess info := by
    unfold runDomainCheck
    rw [hok]
  constructor
  · intro hb
    have hstatus : runDomainCheck whois d = Status.available := by
      rw [hrun]
      simp [classifySuccess, hlen, hreg, hb]
    refine ⟨hstatus, ?_⟩
    rw [check_eq_filter]
    exact List.mem_filter.mpr ⟨hmem, by simp [hstatus]⟩
  · intro hb
    have hstatus : runDomainCheck whois d = Status.unavailable := by
      rw [hrun]
      simp [classifySuccess, hlen, hreg, hb]
    refine ⟨hstatus, ?_⟩
    rw [check_eq_filter]
    exact List.mem_filter.mpr ⟨hmem, by simp [hstatus]⟩

/-- Witness for `ambiguous_record_classification`: a record whose only
content is a source string saying no match, hence verdict available. -/
theorem ambiguous_record_classification_witness :
    runDomainCheck
        (fun _ => Except.ok [("srv", Jv.str "No match for domain")])
        "non-existent-domain-12345.org" = Status.available ∧
      "non-existent-domain-12345.org" ∈
        (check (fun _ => Except.ok [("srv", Jv.str "No match for domain")])
          ["non-existent-domain-12345.org"]).available :=
  (ambiguous_record_classification
      (fun _ => Except.ok [("srv", Jv.str "No match for domain")])
      ["non-existent-domain-12345.org"] "non-existent-domain-12345.org"
      [("srv", Jv.str "No match for domain")]
      (List.mem_singleton.mpr rfl) rfl (List.cons_ne_nil _ _)
      (by decide)).1 (by decide)

/-- C7: the batch pipeline never propagates a per-domain failure: for
every oracle, including ones that fail on every domain, the settled runs
of all per-domain tasks succeed and `check` returns its report. -/
theorem per_domain_failures_absorbed
    (whois : String → Except String Record) (domains : List String) :
    checkSettled whois domains = Except.ok (check whois domains) := by
  unfold checkSettled
  rw [mapM_ok (runDomainCheck whois) domains]
  rfl

/-- C8: the verdict is a pure, deterministic function of the WHOIS
outcome alone, and duplicate occurrences of a domain are all preserved in
the same output list: each list counts the domain exactly as often as the
input does when the verdict selects that list, and zero times
otherwise. -/
theorem duplicate_occurrences_same_list
    (whois : String → Except String Record) (domains : List String)
    (d : String) :
    (∀ whois2 : String → Except String Record, ∀ d2 : String,
      whois2 d2 = whois d → runDomainCheck whois2 d2 = runDomainCheck whois d) ∧
      (check whois domains).available.count d =
        (if runDomainCheck whois d = Status.available
          then domains.count d else 0) ∧
      (check whois domains).unavailable.count d =
        (if runDomainCheck whois d = Status.unavailable
          then domains.count d else 0) := by
  refine ⟨fun whois2 d2 hsame => ?_, ?_, ?_⟩
  · unfold runDomainCheck
    rw [hsame]
  · rw [check_eq_filter, count_filter_eq]
    by_cases h : runDomainCheck whois d = Status.available
    · simp [h]
    · simp [h]
  · rw [check_eq_filter, count_filter_eq]
    by_cases h : runDomainCheck whois d = Status.unavailable
    · simp [h]
    · simp [h]

end Whodis
